import Mathlib

/-!
# Verification of the `web3-rpc-core` eth RPC facade

The repository's single source file, `src/eth.rs`, declares the `EthApi`
trait: the full list of eth-namespace JSON-RPC methods with their parameter
types, success types, and whether each method's result is an immediate
`Result<T>` or a deferred `BoxFuture<Result<T>>`.

Part 1 embeds that trait declaration as a table of method signatures,
translated method-by-method from `src/eth.rs`.

Part 2 models the behaviour the spec ascribes to these methods (block
resolution, read-path dispatch, logs, mining facet).  The repository holds
only the interface declaration, so these definitions are modelled from the
spec, as marked in their doc comments.
-/

/-- Shape of a Rust type appearing in an `EthApi` method signature.
Each constructor names the corresponding Rust type from `src/eth.rs`. -/
inductive Ty where
  | u64 : Ty
  | u256 : Ty
  | h64 : Ty
  | h160 : Ty
  | h256 : Ty
  | bool : Ty
  | bytes : Ty
  | richBlock : Ty
  | transaction : Ty
  | receipt : Ty
  | log : Ty
  | syncStatus : Ty
  | work : Ty
  | index : Ty
  | blockNumber : Ty
  | callRequest : Ty
  | transactionRequest : Ty
  | filter : Ty
  | option : Ty → Ty
  | vec : Ty → Ty
deriving DecidableEq, Repr

/-- `Ty.isOption t` is true exactly when `t` is `Option<_>`:
the method's declared success value may be absent. -/
def Ty.isOption : Ty → Bool
  | .option _ => true
  | _ => false

/-- One method of the `EthApi` trait: its JSON-RPC name, parameter types
(`&self` omitted), declared success type, and whether the declared return is
`BoxFuture<Result<_>>` (`deferred = true`) or a plain `Result<_>`
(`deferred = false`). -/
structure MethodDecl where
  rpcName : String
  params : List Ty
  ret : Ty
  deferred : Bool
deriving DecidableEq, Repr

namespace EthApi

/-- `fn protocol_version(&self) -> BoxFuture<Result<u64>>` -/
def protocol_version : MethodDecl := ⟨"eth_protocolVersion", [], .u64, true⟩

/-- `fn hashrate(&self) -> Result<U256>` -/
def hashrate : MethodDecl := ⟨"eth_hashrate", [], .u256, false⟩

/-- `fn chain_id(&self) -> BoxFuture<Result<Option<U64>>>` -/
def chain_id : MethodDecl := ⟨"eth_chainId", [], .option .u64, true⟩

/-- `fn accounts(&self) -> Result<Vec<H160>>` -/
def accounts : MethodDecl := ⟨"eth_accounts", [], .vec .h160, false⟩

/-- `fn balance(&self, _: H160, _: Option<BlockNumber>) -> BoxFuture<Result<U256>>` -/
def balance : MethodDecl := ⟨"eth_getBalance", [.h160, .option .blockNumber], .u256, true⟩

/-- `fn send_transaction(&self, _: TransactionRequest) -> BoxFuture<Result<H256>>` -/
def send_transaction : MethodDecl :=
  ⟨"eth_sendTransaction", [.transactionRequest], .h256, true⟩

/-- `fn call(&self, _: CallRequest, _: Option<BlockNumber>) -> BoxFuture<Result<Bytes>>` -/
def call : MethodDecl := ⟨"eth_call", [.callRequest, .option .blockNumber], .bytes, true⟩

/-- `fn syncing(&self) -> BoxFuture<Result<SyncStatus>>` -/
def syncing : MethodDecl := ⟨"eth_syncing", [], .syncStatus, true⟩

/-- `fn author(&self) -> BoxFuture<Result<H160>>` -/
def author : MethodDecl := ⟨"eth_coinbase", [], .h160, true⟩

/-- `fn is_mining(&self) -> BoxFuture<Result<bool>>` -/
def is_mining : MethodDecl := ⟨"eth_mining", [], .bool, true⟩

/-- `fn gas_price(&self) -> BoxFuture<Result<U256>>` -/
def gas_price : MethodDecl := ⟨"eth_gasPrice", [], .u256, true⟩

/-- `fn block_number(&self) -> BoxFuture<Result<U256>>` -/
def block_number : MethodDecl := ⟨"eth_blockNumber", [], .u256, true⟩

/-- `fn storage_at(&self, _: H160, _: H256, _: Option<BlockNumber>) -> BoxFuture<Result<H256>>` -/
def storage_at : MethodDecl :=
  ⟨"eth_getStorageAt", [.h160, .h256, .option .blockNumber], .h256, true⟩

/-- `fn block_by_hash(&self, _: H256, _: bool) -> BoxFuture<Result<Option<RichBlock>>>` -/
def block_by_hash : MethodDecl :=
  ⟨"eth_getBlockByHash", [.h256, .bool], .option .richBlock, true⟩

/-- `fn block_by_number(&self, _: BlockNumber, _: bool) -> BoxFuture<Result<Option<RichBlock>>>` -/
def block_by_number : MethodDecl :=
  ⟨"eth_getBlockByNumber", [.blockNumber, .bool], .option .richBlock, true⟩

/-- `fn transaction_count(&self, _: H160, _: Option<BlockNumber>) -> BoxFuture<Result<U256>>` -/
def transaction_count : MethodDecl :=
  ⟨"eth_getTransactionCount", [.h160, .option .blockNumber], .u256, true⟩

/-- `fn block_transaction_count_by_hash(&self, _: H256) -> BoxFuture<Result<Option<U256>>>` -/
def block_transaction_count_by_hash : MethodDecl :=
  ⟨"eth_getBlockTransactionCountByHash", [.h256], .option .u256, true⟩

/-- `fn block_transaction_count_by_number(&self, _: BlockNumber) -> BoxFuture<Result<Option<U256>>>` -/
def block_transaction_count_by_number : MethodDecl :=
  ⟨"eth_getBlockTransactionCountByNumber", [.blockNumber], .option .u256, true⟩

/-- `fn block_uncles_count_by_hash(&self, _: H256) -> Result<U256>` -/
def block_uncles_count_by_hash : MethodDecl :=
  ⟨"eth_getUncleCountByBlockHash", [.h256], .u256, false⟩

/-- `fn block_uncles_count_by_number(&self, _: BlockNumber) -> Result<U256>` -/
def block_uncles_count_by_number : MethodDecl :=
  ⟨"eth_getUncleCountByBlockNumber", [.blockNumber], .u256, false⟩

/-- `fn code_at(&self, _: H160, _: Option<BlockNumber>) -> BoxFuture<Result<Bytes>>` -/
def code_at : MethodDecl := ⟨"eth_getCode", [.h160, .option .blockNumber], .bytes, true⟩

/-- `fn send_raw_transaction(&self, _: Bytes) -> BoxFuture<Result<H256>>` -/
def send_raw_transaction : MethodDecl := ⟨"eth_sendRawTransaction", [.bytes], .h256, true⟩

/-- `fn estimate_gas(&self, _: CallRequest, _: Option<BlockNumber>) -> BoxFuture<Result<U256>>` -/
def estimate_gas : MethodDecl :=
  ⟨"eth_estimateGas", [.callRequest, .option .blockNumber], .u256, true⟩

/-- `fn transaction_by_hash(&self, _: H256) -> BoxFuture<Result<Option<Transaction>>>` -/
def transaction_by_hash : MethodDecl :=
  ⟨"eth_getTransactionByHash", [.h256], .option .transaction, true⟩

/-- `fn transaction_by_block_hash_and_index(&self, _: H256, _: Index) -> BoxFuture<Result<Option<Transaction>>>` -/
def transaction_by_block_hash_and_index : MethodDecl :=
  ⟨"eth_getTransactionByBlockHashAndIndex", [.h256, .index], .option .transaction, true⟩

/-- `fn transaction_by_block_number_and_index(&self, _: BlockNumber, _: Index) -> BoxFuture<Result<Option<Transaction>>>` -/
def transaction_by_block_number_and_index : MethodDecl :=
  ⟨"eth_getTransactionByBlockNumberAndIndex", [.blockNumber, .index], .option .transaction, true⟩

/-- `fn transaction_receipt(&self, _: H256) -> BoxFuture<Result<Option<Receipt>>>` -/
def transaction_receipt : MethodDecl :=
  ⟨"eth_getTransactionReceipt", [.h256], .option .receipt, true⟩

/-- `fn uncle_by_block_hash_and_index(&self, _: H256, _: Index) -> Result<Option<RichBlock>>` -/
def uncle_by_block_hash_and_index : MethodDecl :=
  ⟨"eth_getUncleByBlockHashAndIndex", [.h256, .index], .option .richBlock, false⟩

/-- `fn uncle_by_block_number_and_index(&self, _: BlockNumber, _: Index) -> Result<Option<RichBlock>>` -/
def uncle_by_block_number_and_index : MethodDecl :=
  ⟨"eth_getUncleByBlockNumberAndIndex", [.blockNumber, .index], .option .richBlock, false⟩

/-- `fn logs(&self, _: Filter) -> BoxFuture<Result<Vec<Log>>>` -/
def logs : MethodDecl := ⟨"eth_getLogs", [.filter], .vec .log, true⟩

/-- `fn work(&self) -> Result<Work>` -/
def work : MethodDecl := ⟨"eth_getWork", [], .work, false⟩

/-- `fn submit_work(&self, _: H64, _: H256, _: H256) -> Result<bool>` -/
def submit_work : MethodDecl := ⟨"eth_submitWork", [.h64, .h256, .h256], .bool, false⟩

/-- `fn submit_hashrate(&self, _: U256, _: H256) -> Result<bool>` -/
def submit_hashrate : MethodDecl := ⟨"eth_submitHashrate", [.u256, .h256], .bool, false⟩

end EthApi

/-- The full `EthApi` trait, in declaration order of `src/eth.rs`. -/
def ethApiMethods : List MethodDecl :=
  [EthApi.protocol_version, EthApi.hashrate, EthApi.chain_id, EthApi.accounts,
   EthApi.balance, EthApi.send_transaction, EthApi.call, EthApi.syncing,
   EthApi.author, EthApi.is_mining, EthApi.gas_price, EthApi.block_number,
   EthApi.storage_at, EthApi.block_by_hash, EthApi.block_by_number,
   EthApi.transaction_count, EthApi.block_transaction_count_by_hash,
   EthApi.block_transaction_count_by_number, EthApi.block_uncles_count_by_hash,
   EthApi.block_uncles_count_by_number, EthApi.code_at,
   EthApi.send_raw_transaction, EthApi.estimate_gas, EthApi.transaction_by_hash,
   EthApi.transaction_by_block_hash_and_index,
   EthApi.transaction_by_block_number_and_index, EthApi.transaction_receipt,
   EthApi.uncle_by_block_hash_and_index, EthApi.uncle_by_block_number_and_index,
   EthApi.logs, EthApi.work, EthApi.submit_work, EthApi.submit_hashrate]

/-!
## Part 2: spec-modelled behaviour

The repository contains only the trait declaration; the behaviour of the
methods lives in downstream implementations that are not part of this
repository.  The definitions below are therefore modelled from the spec
(§3 data model, §4.1 BlockRef resolution, §4.2 read path, §4.3 write path,
§4.4 mining facet, §4.5 absence/error normalization), with hashes,
addresses and words rendered as `Nat`.
-/

/-- Modelled from the spec: a log entry (§3 Filter, Glossary "Topic") —
an emitting address, an ordered list of 32-byte topics, and data bytes. -/
structure LogEntry where
  address : Nat
  topics : List Nat
  data : List Nat
deriving DecidableEq, Repr

/-- Modelled from the spec: a transaction included in a block — its hash
and the log entries it emitted. -/
structure Tx where
  hash : Nat
  logs : List LogEntry
deriving DecidableEq, Repr

/-- Modelled from the spec: one canonical-chain block — its hash, its
transactions in order, and the hashes of its uncles. -/
structure Block where
  hash : Nat
  transactions : List Tx
  uncles : List Nat
deriving DecidableEq, Repr

/-- Modelled from the spec (§3): one account's recorded state — balance,
nonce, code bytes, and the storage mapping. -/
structure Account where
  balance : Nat
  nonce : Nat
  code : List Nat
  storage : Nat → Nat

/-- Modelled from the spec (§4.2): the default state of an address with no
recorded account — zero balance, zero nonce, empty code, zero-filled
storage. -/
def defaultAccount : Account := ⟨0, 0, [], fun _ => 0⟩

/-- Modelled from the spec (§3): the PoW job descriptor returned by
`eth_getWork`. -/
structure Work where
  powHash : Nat
  seedHash : Nat
  boundary : Nat
deriving DecidableEq, Repr

/-- Modelled from the spec (§3): the synthetic call envelope used by
`eth_call` / `eth_estimateGas`. -/
structure CallRequest where
  fromAddr : Option Nat
  toAddr : Option Nat
  gas : Option Nat
  gasPrice : Option Nat
  value : Option Nat
  data : Option (List Nat)
deriving DecidableEq, Repr

/-- Modelled from the spec (§4.3): the outcome of a sandboxed execution —
normal completion with output bytes, a logical revert carrying a reason,
or a failure to start execution at all. -/
inductive ExecOutcome where
  | success (output : List Nat) : ExecOutcome
  | revert (reason : List Nat) : ExecOutcome
  | failure (msg : String) : ExecOutcome
deriving DecidableEq, Repr

/-- Modelled from the spec (§3): a client-supplied block identifier —
an exact height or one of the symbolic tags. -/
inductive BlockRef where
  | num (n : Nat) : BlockRef
  | earliest : BlockRef
  | latest : BlockRef
  | pending : BlockRef
deriving DecidableEq, Repr

/-- Modelled from the spec (§7): the RPC error taxonomy relevant to the
claims — not-found surfaced as an error on a non-optional method,
resolution failure, and execution failure. -/
inductive RpcError where
  | blockNotFound : RpcError
  | resolutionFailed : RpcError
  | executionFailure (msg : String) : RpcError
deriving DecidableEq, Repr

/-- Modelled from the spec (§6 collaborator interfaces): the backend state
a single RPC call reads — the canonical chain (block at list position `i`
is at height `i`), per-height account state, the transaction pool, the
chain id, and the mining facet (current job, solution validity,
hashrate-report acceptance). -/
structure ChainState where
  blocks : List Block
  accounts : Nat → Nat → Option Account
  pool : List Nat
  chainId : Option Nat
  currentJob : Work
  solutionValid : Nat → Nat → Nat → Bool
  hashrateAccept : Nat → Nat → Bool
  miningActive : Bool
  exec : CallRequest → Nat → ExecOutcome

/-- Modelled from the spec (§4.1): resolve a block identifier against the
current canonical chain view.  `none` is the "not found" outcome (height
beyond the head); `Pending` degrades to `Latest` (documented fallback). -/
def resolveHeight (st : ChainState) : BlockRef → Option Nat
  | .num n => if n < st.blocks.length then some n else none
  | .earliest => if 0 < st.blocks.length then some 0 else none
  | .latest => if 0 < st.blocks.length then some (st.blocks.length - 1) else none
  | .pending => if 0 < st.blocks.length then some (st.blocks.length - 1) else none

/-- `withIdx i l` pairs each element of `l` with its position, starting
from `i`: the positional indices (transaction index within a block, log
index within a transaction, block height within the chain). -/
def withIdx {α : Type} : Nat → List α → List (Nat × α)
  | _, [] => []
  | i, a :: as => (i, a) :: withIdx (i + 1) as

/-- Concatenation of the images of a list's elements, used for the
flattening steps of the log enumeration (§4.2). -/
def flatMapL {α β : Type} (f : α → List β) : List α → List β
  | [] => []
  | a :: as => f a ++ flatMapL f as

/-- `findSomeL f l` returns the first `some` value of `f` along `l`. -/
def findSomeL {α β : Type} (f : α → Option β) : List α → Option β
  | [] => none
  | a :: as =>
    match f a with
    | some b => some b
    | none => findSomeL f as

/-- Modelled from the spec (§4.1): locate a block by its hash on the
canonical chain, together with its height. -/
def findBlockByHash (st : ChainState) (hsh : Nat) : Option (Nat × Block) :=
  (withIdx 0 st.blocks).find? (fun p => p.2.hash == hsh)

/-- Modelled from the spec (§4.2): the account state read at a resolved
height — the recorded account, or the all-zero default when none is
recorded. -/
def accountAt (st : ChainState) (h : Nat) (a : Nat) : Account :=
  (st.accounts h a).getD defaultAccount

/-- Modelled from the spec (§4.2, §4.5): `eth_getBalance` — resolve the
block, then read the balance; zero for an address with no recorded state;
a block identifier that does not resolve errors (non-optional method). -/
def ethGetBalance (st : ChainState) (a : Nat) (b : Option BlockRef) :
    Except RpcError Nat :=
  match resolveHeight st (b.getD .latest) with
  | some h => .ok (accountAt st h a).balance
  | none => .error .blockNotFound

/-- Modelled from the spec (§4.2, §4.5): `eth_getTransactionCount` — the
account nonce at the resolved height. -/
def ethGetTransactionCount (st : ChainState) (a : Nat) (b : Option BlockRef) :
    Except RpcError Nat :=
  match resolveHeight st (b.getD .latest) with
  | some h => .ok (accountAt st h a).nonce
  | none => .error .blockNotFound

/-- Modelled from the spec (§4.2, §4.5): `eth_getCode` — the code bytes at
the resolved height; empty for an address with no recorded state. -/
def ethGetCode (st : ChainState) (a : Nat) (b : Option BlockRef) :
    Except RpcError (List Nat) :=
  match resolveHeight st (b.getD .latest) with
  | some h => .ok (accountAt st h a).code
  | none => .error .blockNotFound

/-- Modelled from the spec (§4.2, §4.5): `eth_getStorageAt` — the storage
word at the given slot; zero-filled for an address with no recorded
state. -/
def ethGetStorageAt (st : ChainState) (a slot : Nat) (b : Option BlockRef) :
    Except RpcError Nat :=
  match resolveHeight st (b.getD .latest) with
  | some h => .ok ((accountAt st h a).storage slot)
  | none => .error .blockNotFound

/-- Modelled from the spec (§3): the log-query predicate — optional block
range, optional address set, positional optional topic sets. -/
structure LogFilter where
  fromBlock : Option BlockRef
  toBlock : Option BlockRef
  address : Option (List Nat)
  topics : List (Option (List Nat))
deriving DecidableEq, Repr

/-- Modelled from the spec (§3, §8): positional topic matching — position
`i` of a log's topics must belong to position `i`'s set when that position
carries one; `none` at a position matches anything; a log with fewer topics
than the predicate has positions does not match. -/
def topicsMatch : List (Option (List Nat)) → List Nat → Bool
  | [], _ => true
  | some s :: ps, t :: ts => s.contains t && topicsMatch ps ts
  | none :: ps, _ :: ts => topicsMatch ps ts
  | _ :: _, [] => false

/-- Modelled from the spec (§4.2, §8): the full filter predicate — a
conjunction of address-set membership (absent set matches all) and the
positional topic predicate. -/
def matchesFilter (flt : LogFilter) (l : LogEntry) : Bool :=
  (match flt.address with
   | none => true
   | some s => s.contains l.address) && topicsMatch flt.topics l.topics

/-- A log entry as returned by `eth_getLogs`: the entry plus the
(block number, transaction index, log index) coordinates that order it. -/
structure FullLog where
  blockNumber : Nat
  txIndex : Nat
  logIndex : Nat
  entry : LogEntry
deriving DecidableEq, Repr

/-- Modelled from the spec (§4.2): the matching logs of one transaction,
tagged with the containing block number, the transaction's index, and each
log's index within the transaction. -/
def txLogs (bn ti : Nat) (flt : LogFilter) (tx : Tx) : List FullLog :=
  flatMapL
    (fun q => if matchesFilter flt q.2 then [⟨bn, ti, q.1, q.2⟩] else [])
    (withIdx 0 tx.logs)

/-- Modelled from the spec (§4.2): the matching logs of one block, its
transactions enumerated in order. -/
def blockLogs (bn : Nat) (flt : LogFilter) (b : Block) : List FullLog :=
  flatMapL (fun p => txLogs bn p.1 flt p.2) (withIdx 0 b.transactions)

/-- Modelled from the spec (§4.2): `eth_getLogs` — resolve the inclusive
block range (absent bounds default to `Latest`, §4.1), enumerate the
blocks of the range in ascending height order, and within each block the
transactions and their logs in order, keeping the entries the filter
accepts. -/
def ethGetLogs (st : ChainState) (flt : LogFilter) :
    Except RpcError (List FullLog) :=
  match resolveHeight st (flt.fromBlock.getD .latest),
        resolveHeight st (flt.toBlock.getD .latest) with
  | some f, some t =>
    .ok (flatMapL (fun p => blockLogs p.1 flt p.2)
      ((withIdx 0 st.blocks).filter (fun p => f ≤ p.1 && p.1 ≤ t)))
  | _, _ => .error .resolutionFailed

/-- The transactions member of a returned block: full objects or bare
hashes, selected by the method's boolean flag (§4.2). -/
inductive TxRender where
  | fullTxs (txs : List Tx) : TxRender
  | hashes (hs : List Nat) : TxRender
deriving DecidableEq, Repr

/-- Modelled from the spec (§4.2): the block object a block query returns —
height, hash, transactions rendered per the flag, uncle hashes. -/
structure RichBlock where
  number : Nat
  hash : Nat
  transactions : TxRender
  uncles : List Nat
deriving DecidableEq, Repr

/-- Modelled from the spec (§4.2): render a block at a known height, the
boolean flag selecting full transaction objects or bare hashes. -/
def renderBlock (h : Nat) (b : Block) (full : Bool) : RichBlock :=
  ⟨h, b.hash,
   if full then .fullTxs b.transactions else .hashes (b.transactions.map Tx.hash),
   b.uncles⟩

/-- Modelled from the spec (§4.2, §4.5): `eth_getBlockByHash` — absence
(`ok none`), not an error, when no canonical block has the hash. -/
def ethGetBlockByHash (st : ChainState) (hsh : Nat) (full : Bool) :
    Except RpcError (Option RichBlock) :=
  .ok ((findBlockByHash st hsh).map (fun p => renderBlock p.1 p.2 full))

/-- Modelled from the spec (§4.2, §4.5): `eth_getBlockByNumber` — absence
(`ok none`), not an error, when the identifier does not resolve to an
existing block. -/
def ethGetBlockByNumber (st : ChainState) (b : BlockRef) (full : Bool) :
    Except RpcError (Option RichBlock) :=
  .ok ((resolveHeight st b).bind
    (fun h => (st.blocks[h]?).map (fun blk => renderBlock h blk full)))

/-- Modelled from the spec (§4.2): `eth_getBlockTransactionCountByHash` —
optional result: `none` when the block does not exist, the transaction
count (possibly zero) when it does. -/
def ethGetBlockTransactionCountByHash (st : ChainState) (hsh : Nat) :
    Except RpcError (Option Nat) :=
  .ok ((findBlockByHash st hsh).map (fun p => p.2.transactions.length))

/-- Modelled from the spec (§4.2): `eth_getBlockTransactionCountByNumber` —
optional result: `none` when the identifier does not resolve, the
transaction count (possibly zero) when it does. -/
def ethGetBlockTransactionCountByNumber (st : ChainState) (b : BlockRef) :
    Except RpcError (Option Nat) :=
  .ok ((resolveHeight st b).bind
    (fun h => (st.blocks[h]?).map (fun blk => blk.transactions.length)))

/-- Modelled from the spec (§4.5) over the source's declared return type
`Result<U256>`: `eth_getUncleCountByBlockHash` has a non-optional success
type, so a missing block is normalized to an RPC error, never absence. -/
def ethGetUncleCountByBlockHash (st : ChainState) (hsh : Nat) :
    Except RpcError Nat :=
  match findBlockByHash st hsh with
  | some p => .ok p.2.uncles.length
  | none => .error .blockNotFound

/-- Modelled from the spec (§4.5) over the source's declared return type
`Result<U256>`: `eth_getUncleCountByBlockNumber` has a non-optional
success type, so an unresolvable identifier is normalized to an RPC error,
never absence. -/
def ethGetUncleCountByBlockNumber (st : ChainState) (b : BlockRef) :
    Except RpcError Nat :=
  match resolveHeight st b with
  | some h =>
    match st.blocks[h]? with
    | some blk => .ok blk.uncles.length
    | none => .error .blockNotFound
  | none => .error .blockNotFound

/-- A transaction as returned by position-aware lookups: the transaction
plus its (block number, transaction index) coordinates. -/
structure TxAt where
  tx : Tx
  blockNumber : Nat
  txIndex : Nat
deriving DecidableEq, Repr

/-- Modelled from the spec (§4.2): `eth_getTransactionByBlockHashAndIndex` —
absence when either the block or the index within it is out of range. -/
def ethGetTransactionByBlockHashAndIndex (st : ChainState) (hsh idx : Nat) :
    Except RpcError (Option TxAt) :=
  .ok ((findBlockByHash st hsh).bind
    (fun p => (p.2.transactions[idx]?).map (fun tx => ⟨tx, p.1, idx⟩)))

/-- Modelled from the spec (§4.2): `eth_getTransactionByBlockNumberAndIndex` —
absence when either the block or the index within it is out of range. -/
def ethGetTransactionByBlockNumberAndIndex (st : ChainState) (b : BlockRef) (idx : Nat) :
    Except RpcError (Option TxAt) :=
  .ok ((resolveHeight st b).bind
    (fun h => (st.blocks[h]?).bind
      (fun blk => (blk.transactions[idx]?).map (fun tx => ⟨tx, h, idx⟩))))

/-- Modelled from the spec (§4.2): `eth_getUncleByBlockHashAndIndex` —
absence if either the block or the index within its uncle list is out of
range; an uncle is carried in the chain model by its hash. -/
def ethGetUncleByBlockHashAndIndex (st : ChainState) (hsh idx : Nat) :
    Except RpcError (Option Nat) :=
  .ok ((findBlockByHash st hsh).bind (fun p => p.2.uncles[idx]?))

/-- Modelled from the spec (§4.2): `eth_getUncleByBlockNumberAndIndex` —
absence if either the block or the index within its uncle list is out of
range; an uncle is carried in the chain model by its hash. -/
def ethGetUncleByBlockNumberAndIndex (st : ChainState) (b : BlockRef) (idx : Nat) :
    Except RpcError (Option Nat) :=
  .ok ((resolveHeight st b).bind
    (fun h => (st.blocks[h]?).bind (fun blk => blk.uncles[idx]?)))

/-- A transaction receipt: the transaction hash and the (block number,
transaction index) coordinates of its inclusion. -/
structure Receipt where
  txHash : Nat
  blockNumber : Nat
  txIndex : Nat
deriving DecidableEq, Repr

/-- Modelled from the spec (§4.2, Glossary "Pool"): whether a transaction
hash is included in some canonical block. -/
def txIncluded (st : ChainState) (hsh : Nat) : Bool :=
  st.blocks.any (fun b => b.transactions.any (fun tx => tx.hash == hsh))

/-- Modelled from the spec (§4.2): search the chain for the inclusion
coordinates of a transaction hash and build its receipt. -/
def findReceipt (st : ChainState) (hsh : Nat) : Option Receipt :=
  findSomeL
    (fun p => findSomeL
      (fun q => if q.2.hash == hsh then some ⟨hsh, p.1, q.1⟩ else none)
      (withIdx 0 p.2.transactions))
    (withIdx 0 st.blocks)

/-- Modelled from the spec (§4.2, §8): `eth_getTransactionReceipt` —
receipts exist only post-inclusion; a hash not included in any block
(pooled or unknown alike) yields absence, never an error. -/
def ethGetTransactionReceipt (st : ChainState) (hsh : Nat) :
    Except RpcError (Option Receipt) :=
  .ok (findReceipt st hsh)

/-- Modelled from the spec (§4.4, §8): `eth_submitWork` — `true` iff the
submitted (nonce, powHash, mixHash) is accepted as a valid solution for
the currently outstanding job; a stale job (powHash no longer current) or
an invalid solution yields `false`, never an RPC error. -/
def ethSubmitWork (st : ChainState) (nonce powHash mixHash : Nat) :
    Except RpcError Bool :=
  .ok (powHash == st.currentJob.powHash && st.solutionValid nonce powHash mixHash)

/-- Modelled from the spec (§4.4, §6): `eth_submitHashrate` — a boolean
acceptance signal from the backend's hashrate aggregation, never an RPC
error for a rejected report. -/
def ethSubmitHashrate (st : ChainState) (rate idHash : Nat) :
    Except RpcError Bool :=
  .ok (st.hashrateAccept rate idHash)

/-- Modelled from the source doc comment on `chain_id` ("None is returned
if not available"): `eth_chainId` returns the backend's chain id when
available and `ok none` otherwise. -/
def ethChainId (st : ChainState) : Except RpcError (Option Nat) :=
  .ok st.chainId

/-- Modelled from the spec (§4.3, §7): `eth_call` — sandboxed execution; a
logical revert is a successful RPC result whose output bytes encode the
revert reason; an RPC error arises only when resolution fails or execution
cannot start. -/
def revertSelector : List Nat := [8, 195, 121, 160]

/-- Modelled from the spec (§4.3): the output bytes encoding a revert
reason: the revert selector followed by the reason bytes. -/
def revertEncode (reason : List Nat) : List Nat := revertSelector ++ reason

/-- Modelled from the spec (§4.3, §7): `eth_call` dispatcher. -/
def ethCall (st : ChainState) (req : CallRequest) (b : Option BlockRef) :
    Except RpcError (List Nat) :=
  match resolveHeight st (b.getD .latest) with
  | none => .error .blockNotFound
  | some h =>
    match st.exec req h with
    | .success o => .ok o
    | .revert r => .ok (revertEncode r)
    | .failure m => .error (.executionFailure m)

/-- A concrete backend state used to evaluate the theorems on explicit
inputs: two blocks, the second with one transaction carrying two logs and
one uncle; one pooled-but-unincluded transaction hash. -/
def sampleState : ChainState where
  blocks :=
    [⟨100, [], []⟩,
     ⟨101, [⟨7, [⟨5, [1, 2], [9]⟩, ⟨6, [1], []⟩]⟩, ⟨8, [⟨5, [3], []⟩]⟩], [55]⟩]
  accounts := fun _ _ => none
  pool := [77]
  chainId := some 42
  currentJob := ⟨1000, 2000, 3000⟩
  solutionValid := fun n p _ => n == 9 && p == 1000
  hashrateAccept := fun _ _ => true
  miningActive := false
  exec := fun req _ =>
    match req.data with
    | some (0 :: rest) => .revert rest
    | some ds => .success ds
    | none => .failure "no data"

/-!
## Helper lemmas about the list combinators
-/

theorem mem_flatMapL {α β : Type} {f : α → List β} {x : β} :
    ∀ {l : List α}, x ∈ flatMapL f l ↔ ∃ a, a ∈ l ∧ x ∈ f a
  | [] => by simp [flatMapL]
  | a :: as => by
    rw [flatMapL, List.mem_append, mem_flatMapL (l := as)]
    constructor
    · rintro (h | ⟨b, hb, hx⟩)
      · exact ⟨a, List.mem_cons_self a as, h⟩
      · exact ⟨b, List.mem_cons_of_mem a hb, hx⟩
    · rintro ⟨b, hb, hx⟩
      rcases List.mem_cons.mp hb with rfl | hb
      · exact Or.inl hx
      · exact Or.inr ⟨b, hb, hx⟩

theorem pairwise_flatMapL {α β : Type} {R : β → β → Prop} {S : α → α → Prop}
    {f : α → List β}
    (hcross : ∀ a b, S a b → ∀ x ∈ f a, ∀ y ∈ f b, R x y) :
    ∀ {l : List α}, List.Pairwise S l → (∀ a ∈ l, List.Pairwise R (f a)) →
      List.Pairwise R (flatMapL f l)
  | [], _, _ => List.Pairwise.nil
  | a :: as, hS, hin => by
    rw [flatMapL, List.pairwise_append]
    rcases (List.pairwise_cons.mp hS) with ⟨hrel, htl⟩
    refine ⟨hin a (List.mem_cons_self a as),
      pairwise_flatMapL hcross htl
        (fun b hb => hin b (List.mem_cons_of_mem a hb)), ?_⟩
    intro x hx y hy
    rcases mem_flatMapL.mp hy with ⟨b, hb, hyb⟩
    exact hcross a b (hrel b hb) x hx y hyb

theorem mem_withIdx_fst_ge {α : Type} :
    ∀ {i : Nat} {l : List α} {p : Nat × α}, p ∈ withIdx i l → i ≤ p.1
  | _, [], _, h => by simp [withIdx] at h
  | i, a :: as, p, h => by
    rw [withIdx] at h
    rcases List.mem_cons.mp h with rfl | h
    · exact Nat.le_refl i
    · have := mem_withIdx_fst_ge h
      omega

theorem mem_withIdx_snd {α : Type} :
    ∀ {i : Nat} {l : List α} {p : Nat × α}, p ∈ withIdx i l → p.2 ∈ l
  | _, [], _, h => by simp [withIdx] at h
  | i, a :: as, p, h => by
    rw [withIdx] at h
    rcases List.mem_cons.mp h with rfl | h
    · exact List.mem_cons_self a as
    · exact List.mem_cons_of_mem a (mem_withIdx_snd h)

theorem pairwise_withIdx {α : Type} :
    ∀ (i : Nat) (l : List α),
      List.Pairwise (fun p q : Nat × α => p.1 < q.1) (withIdx i l)
  | _, [] => List.Pairwise.nil
  | i, a :: as => by
    rw [withIdx]
    refine List.Pairwise.cons ?_ (pairwise_withIdx (i + 1) as)
    intro q hq
    have := mem_withIdx_fst_ge hq
    omega

theorem findSomeL_eq_none {α β : Type} {f : α → Option β} :
    ∀ {l : List α}, (∀ a ∈ l, f a = none) → findSomeL f l = none
  | [], _ => rfl
  | a :: as, h => by
    have ha := h a (List.mem_cons_self a as)
    rw [findSomeL, ha]
    exact findSomeL_eq_none (fun b hb => h b (List.mem_cons_of_mem a hb))

theorem find?_withIdx_eq {α : Type} (key : α → Nat) :
    ∀ (l : List α) (i k : Nat) (b : α), (l.map key).Nodup → l[k]? = some b →
      (withIdx i l).find? (fun p => key p.2 == key b) = some (i + k, b)
  | [], _, k, _, _, hk => by simp at hk
  | a :: as, i, 0, b, _, hk => by
    have hab : a = b := by simpa using hk
    subst hab
    rw [withIdx]
    rw [List.find?_cons_of_pos _ (by simp)]
    simp
  | a :: as, i, k + 1, b, hnd, hk => by
    rw [List.map_cons, List.nodup_cons] at hnd
    have hk2 : as[k]? = some b := by simpa using hk
    have hbmem : b ∈ as := by
      have := List.getElem?_eq_some.mp hk2
      rcases this with ⟨hlt, hget⟩
      exact hget ▸ List.getElem_mem hlt
    have hne : key a ≠ key b := by
      intro he
      exact hnd.1 (he ▸ List.mem_map_of_mem key hbmem)
    rw [withIdx]
    rw [List.find?_cons_of_neg _ (by simp [hne])]
    have := find?_withIdx_eq key as (i + 1) k b hnd.2 hk2
    rw [this]
    congr 2
    omega

/-- The total order of returned logs (§4.2): ascending by block number,
then transaction index, then log index. -/
def keyLt (a b : FullLog) : Prop :=
  a.blockNumber < b.blockNumber ∨
    (a.blockNumber = b.blockNumber ∧
      (a.txIndex < b.txIndex ∨ (a.txIndex = b.txIndex ∧ a.logIndex < b.logIndex)))

instance (a b : FullLog) : Decidable (keyLt a b) := by
  unfold keyLt
  infer_instance

theorem txLogs_tag {bn ti : Nat} {flt : LogFilter} {tx : Tx} {x : FullLog}
    (hx : x ∈ txLogs bn ti flt tx) :
    x.blockNumber = bn ∧ x.txIndex = ti := by
  rcases mem_flatMapL.mp hx with ⟨q, _, hxq⟩
  by_cases hm : matchesFilter flt q.2 = true
  · rw [if_pos hm] at hxq
    rcases List.mem_singleton.mp hxq with rfl
    exact ⟨rfl, rfl⟩
  · rw [if_neg hm] at hxq
    simp at hxq

theorem txLogs_logIndex {bn ti : Nat} {flt : LogFilter}
    {q : Nat × LogEntry} {x : FullLog}
    (hx : x ∈ (if matchesFilter flt q.2 then
      [(⟨bn, ti, q.1, q.2⟩ : FullLog)] else [])) :
    x = ⟨bn, ti, q.1, q.2⟩ := by
  by_cases hm : matchesFilter flt q.2 = true
  · rw [if_pos hm] at hx
    exact List.mem_singleton.mp hx
  · rw [if_neg hm] at hx
    simp at hx

theorem txLogs_pairwise (bn ti : Nat) (flt : LogFilter) (tx : Tx) :
    List.Pairwise keyLt (txLogs bn ti flt tx) := by
  refine pairwise_flatMapL ?_ (pairwise_withIdx 0 tx.logs) ?_
  · intro a b hab x hx y hy
    rcases txLogs_logIndex hx with rfl
    rcases txLogs_logIndex hy with rfl
    exact Or.inr ⟨rfl, Or.inr ⟨rfl, hab⟩⟩
  · intro a _
    by_cases hm : matchesFilter flt a.2 = true
    · rw [if_pos hm]
      exact List.pairwise_singleton _ _
    · rw [if_neg hm]
      exact List.Pairwise.nil

theorem blockLogs_tag {bn : Nat} {flt : LogFilter} {b : Block} {x : FullLog}
    (hx : x ∈ blockLogs bn flt b) : x.blockNumber = bn := by
  rcases mem_flatMapL.mp hx with ⟨p, _, hxp⟩
  exact (txLogs_tag hxp).1

theorem blockLogs_pairwise (bn : Nat) (flt : LogFilter) (b : Block) :
    List.Pairwise keyLt (blockLogs bn flt b) := by
  refine pairwise_flatMapL ?_ (pairwise_withIdx 0 b.transactions) ?_
  · intro p q hpq x hx y hy
    rcases txLogs_tag hx with ⟨hxb, hxt⟩
    rcases txLogs_tag hy with ⟨hyb, hyt⟩
    exact Or.inr ⟨hxb.trans hyb.symm, Or.inl (by rw [hxt, hyt]; exact hpq)⟩
  · intro p _
    exact txLogs_pairwise bn p.1 flt p.2

/-!
## Claim theorems
-/

/-- C6: for every fixed chain state and every log filter, `eth_getLogs`
returns its entries in ascending total order by (block number, transaction
index, log index), and re-querying the unchanged state with the same
filter yields identical output. -/
theorem logs_ordered_and_idempotent (st : ChainState) (flt : LogFilter)
    (l : List FullLog) (h : ethGetLogs st flt = .ok l) :
    List.Pairwise keyLt l ∧ ethGetLogs st flt = ethGetLogs st flt := by
  refine ⟨?_, rfl⟩
  unfold ethGetLogs at h
  split at h
  · rw [Except.ok.injEq] at h
    subst h
    refine pairwise_flatMapL (S := fun p q : Nat × Block => p.1 < q.1) ?_ ?_ ?_
    · intro p q hpq x hx y hy
      exact Or.inl (by rw [blockLogs_tag hx, blockLogs_tag hy]; exact hpq)
    · exact List.Pairwise.sublist (List.filter_sublist _) (pairwise_withIdx 0 st.blocks)
    · intro p _
      exact blockLogs_pairwise p.1 flt p.2
  · simp at h

/-- Witness for C6 on a concrete chain with two blocks and three logs. -/
theorem logs_ordered_and_idempotent_witness :
    List.Pairwise keyLt
      [⟨1, 0, 0, ⟨5, [1, 2], [9]⟩⟩, ⟨1, 0, 1, ⟨6, [1], []⟩⟩,
       ⟨1, 1, 0, ⟨5, [3], []⟩⟩] ∧
      ethGetLogs sampleState ⟨some .earliest, some .latest, none, []⟩ =
        ethGetLogs sampleState ⟨some .earliest, some .latest, none, []⟩ :=
  logs_ordered_and_idempotent sampleState
    ⟨some .earliest, some .latest, none, []⟩
    [⟨1, 0, 0, ⟨5, [1, 2], [9]⟩⟩, ⟨1, 0, 1, ⟨6, [1], []⟩⟩,
     ⟨1, 1, 0, ⟨5, [3], []⟩⟩] rfl

/-- C7: identifying a canonical block by its height and by its own hash
yields identical results for all five hash/number method pairs of the
read path: block lookup, block transaction count, uncle count,
transaction-by-(block, index) lookup, and uncle-by-(block, index)
lookup. -/
theorem query_by_hash_eq_by_number (st : ChainState) (k : Nat) (b : Block)
    (full : Bool) (idx : Nat)
    (hnd : (st.blocks.map Block.hash).Nodup) (hb : st.blocks[k]? = some b) :
    ethGetBlockByHash st b.hash full = ethGetBlockByNumber st (.num k) full ∧
    ethGetBlockTransactionCountByHash st b.hash =
      ethGetBlockTransactionCountByNumber st (.num k) ∧
    ethGetUncleCountByBlockHash st b.hash =
      ethGetUncleCountByBlockNumber st (.num k) ∧
    ethGetTransactionByBlockHashAndIndex st b.hash idx =
      ethGetTransactionByBlockNumberAndIndex st (.num k) idx ∧
    ethGetUncleByBlockHashAndIndex st b.hash idx =
      ethGetUncleByBlockNumberAndIndex st (.num k) idx := by
  have hfind : findBlockByHash st b.hash = some (k, b) := by
    have := find?_withIdx_eq Block.hash st.blocks 0 k b hnd hb
    simpa [findBlockByHash] using this
  have hk : k < st.blocks.length := by
    by_contra hc
    push_neg at hc
    rw [List.getElem?_eq_none hc] at hb
    cases hb
  have hres : resolveHeight st (.num k) = some k := by
    simp [resolveHeight, hk]
  refine ⟨?_, ?_, ?_, ?_, ?_⟩
  · simp [ethGetBlockByHash, ethGetBlockByNumber, hfind, hres, hb]
  · simp [ethGetBlockTransactionCountByHash,
      ethGetBlockTransactionCountByNumber, hfind, hres, hb]
  · simp [ethGetUncleCountByBlockHash, ethGetUncleCountByBlockNumber,
      hfind, hres, hb]
  · simp [ethGetTransactionByBlockHashAndIndex,
      ethGetTransactionByBlockNumberAndIndex, hfind, hres, hb]
  · simp [ethGetUncleByBlockHashAndIndex,
      ethGetUncleByBlockNumberAndIndex, hfind, hres, hb]

/-- Witness for C7: height 1 of the concrete chain versus its hash 101. -/
theorem query_by_hash_eq_by_number_witness :
    ethGetBlockByHash sampleState 101 true =
      ethGetBlockByNumber sampleState (.num 1) true ∧
    ethGetBlockTransactionCountByHash sampleState 101 =
      ethGetBlockTransactionCountByNumber sampleState (.num 1) ∧
    ethGetUncleCountByBlockHash sampleState 101 =
      ethGetUncleCountByBlockNumber sampleState (.num 1) ∧
    ethGetTransactionByBlockHashAndIndex sampleState 101 0 =
      ethGetTransactionByBlockNumberAndIndex sampleState (.num 1) 0 ∧
    ethGetUncleByBlockHashAndIndex sampleState 101 0 =
      ethGetUncleByBlockNumberAndIndex sampleState (.num 1) 0 :=
  query_by_hash_eq_by_number sampleState 1
    ⟨101, [⟨7, [⟨5, [1, 2], [9]⟩, ⟨6, [1], []⟩]⟩, ⟨8, [⟨5, [3], []⟩]⟩], [55]⟩
    true 0 (by decide) rfl

/-- C1 counterexample: the claim says all four count methods return
absence (an empty optional success) for a missing block, but the source
trait declares both uncle-count methods with the non-optional success type
`U256`, so they cannot return absence; under the §4.5 normalizer a missing
block is an RPC error there, shown here on a concrete missing hash. -/
theorem count_methods_claim_false :
    EthApi.block_uncles_count_by_hash.ret.isOption = false ∧
    EthApi.block_uncles_count_by_number.ret.isOption = false ∧
    ethGetUncleCountByBlockHash sampleState 999 = .error .blockNotFound :=
  ⟨rfl, rfl, rfl⟩

/-- C1 amended: the two transaction-count methods have optional success
types and return absence for a missing block and a count of zero (not
absence) for an existing empty block; the two uncle-count methods have
non-optional `U256` success types, so a missing block is an RPC error
there, and an existing block with no uncles yields the count zero. -/
theorem count_methods_contract (st : ChainState) (hsh : Nat) (bref : BlockRef) :
    EthApi.block_transaction_count_by_hash.ret.isOption = true ∧
    EthApi.block_transaction_count_by_number.ret.isOption = true ∧
    EthApi.block_uncles_count_by_hash.ret.isOption = false ∧
    EthApi.block_uncles_count_by_number.ret.isOption = false ∧
    (findBlockByHash st hsh = none →
      ethGetBlockTransactionCountByHash st hsh = .ok none ∧
      ethGetUncleCountByBlockHash st hsh = .error .blockNotFound) ∧
    (∀ k b, findBlockByHash st hsh = some (k, b) →
      (b.transactions = [] →
        ethGetBlockTransactionCountByHash st hsh = .ok (some 0)) ∧
      (b.uncles = [] → ethGetUncleCountByBlockHash st hsh = .ok 0)) ∧
    (resolveHeight st bref = none →
      ethGetBlockTransactionCountByNumber st bref = .ok none ∧
      ethGetUncleCountByBlockNumber st bref = .error .blockNotFound) ∧
    (∀ k b, resolveHeight st bref = some k → st.blocks[k]? = some b →
      (b.transactions = [] →
        ethGetBlockTransactionCountByNumber st bref = .ok (some 0)) ∧
      (b.uncles = [] → ethGetUncleCountByBlockNumber st bref = .ok 0)) := by
  refine ⟨rfl, rfl, rfl, rfl, ?_, ?_, ?_, ?_⟩
  · intro hnone
    constructor
    · simp [ethGetBlockTransactionCountByHash, hnone]
    · simp [ethGetUncleCountByBlockHash, hnone]
  · intro k b hfind
    constructor
    · intro htx
      simp [ethGetBlockTransactionCountByHash, hfind, htx]
    · intro hu
      simp [ethGetUncleCountByBlockHash, hfind, hu]
  · intro hnone
    constructor
    · simp [ethGetBlockTransactionCountByNumber, hnone]
    · simp [ethGetUncleCountByBlockNumber, hnone]
  · intro k b hres hget
    constructor
    · intro htx
      simp [ethGetBlockTransactionCountByNumber, hres, hget, htx]
    · intro hu
      simp [ethGetUncleCountByBlockNumber, hres, hget, hu]

/-- Witness for C1 (amended) on the concrete chain: hash 999 names no
block, and the genesis block at height 0 (hash 100) has no transactions
and no uncles. -/
theorem count_methods_contract_witness :
    (ethGetBlockTransactionCountByHash sampleState 999 = .ok none ∧
      ethGetUncleCountByBlockHash sampleState 999 = .error .blockNotFound) ∧
    ethGetBlockTransactionCountByHash sampleState 100 = .ok (some 0) ∧
    ethGetUncleCountByBlockHash sampleState 100 = .ok 0 ∧
    ethGetBlockTransactionCountByNumber sampleState (.num 9) = .ok none ∧
    ethGetUncleCountByBlockNumber sampleState (.num 9) = .error .blockNotFound ∧
    ethGetBlockTransactionCountByNumber sampleState (.num 0) = .ok (some 0) ∧
    ethGetUncleCountByBlockNumber sampleState (.num 0) = .ok 0 := by
  refine ⟨(count_methods_contract sampleState 999 (.num 9)).2.2.2.2.1 rfl,
    ((count_methods_contract sampleState 100 (.num 9)).2.2.2.2.2.1
      0 ⟨100, [], []⟩ rfl).1 rfl,
    ((count_methods_contract sampleState 100 (.num 9)).2.2.2.2.2.1
      0 ⟨100, [], []⟩ rfl).2 rfl,
    ((count_methods_contract sampleState 999 (.num 9)).2.2.2.2.2.2.1 rfl).1,
    ((count_methods_contract sampleState 999 (.num 9)).2.2.2.2.2.2.1 rfl).2,
    ((count_methods_contract sampleState 999 (.num 0)).2.2.2.2.2.2.2
      0 ⟨100, [], []⟩ rfl rfl).1 rfl,
    ((count_methods_contract sampleState 999 (.num 0)).2.2.2.2.2.2.2
      0 ⟨100, [], []⟩ rfl rfl).2 rfl⟩

/-- C2: for an address with no recorded state at the resolved height of
any resolvable block identifier, balance, nonce, code and storage reads
all succeed with the documented zero/empty value. -/
theorem default_state_reads_zero (st : ChainState) (a slot k : Nat)
    (b : Option BlockRef)
    (hres : resolveHeight st (b.getD .latest) = some k)
    (hacc : st.accounts k a = none) :
    ethGetBalance st a b = .ok 0 ∧
    ethGetTransactionCount st a b = .ok 0 ∧
    ethGetCode st a b = .ok [] ∧
    ethGetStorageAt st a slot b = .ok 0 := by
  refine ⟨?_, ?_, ?_, ?_⟩
  · simp [ethGetBalance, hres, accountAt, hacc, defaultAccount]
  · simp [ethGetTransactionCount, hres, accountAt, hacc, defaultAccount]
  · simp [ethGetCode, hres, accountAt, hacc, defaultAccount]
  · simp [ethGetStorageAt, hres, accountAt, hacc, defaultAccount]

/-- Witness for C2: a never-seen address on the concrete chain, queried at
the explicit height 0 and at the defaulted latest block. -/
theorem default_state_reads_zero_witness :
    (ethGetBalance sampleState 123 (some (.num 0)) = .ok 0 ∧
      ethGetTransactionCount sampleState 123 (some (.num 0)) = .ok 0 ∧
      ethGetCode sampleState 123 (some (.num 0)) = .ok [] ∧
      ethGetStorageAt sampleState 123 7 (some (.num 0)) = .ok 0) ∧
    ethGetBalance sampleState 123 none = .ok 0 :=
  ⟨default_state_reads_zero sampleState 123 7 0 (some (.num 0)) rfl rfl,
   (default_state_reads_zero sampleState 123 7 1 none rfl rfl).1⟩

/-- C3: the block queries are declared with a boolean flag selecting full
transaction objects versus bare hashes and with optional success types;
a hash naming no canonical block, or an identifier that does not resolve,
yields absence (`ok none`), not an RPC error. -/
theorem block_queries_absence (st : ChainState) (hsh : Nat) (bref : BlockRef)
    (full : Bool) :
    EthApi.block_by_hash.params = [.h256, .bool] ∧
    EthApi.block_by_hash.ret = .option .richBlock ∧
    EthApi.block_by_number.params = [.blockNumber, .bool] ∧
    EthApi.block_by_number.ret = .option .richBlock ∧
    (findBlockByHash st hsh = none →
      ethGetBlockByHash st hsh full = .ok none) ∧
    (resolveHeight st bref = none →
      ethGetBlockByNumber st bref full = .ok none) := by
  refine ⟨rfl, rfl, rfl, rfl, ?_, ?_⟩
  · intro hnone
    simp [ethGetBlockByHash, hnone]
  · intro hnone
    simp [ethGetBlockByNumber, hnone]

/-- Witness for C3: hash 999 and height 9 name no block of the concrete
chain. -/
theorem block_queries_absence_witness :
    ethGetBlockByHash sampleState 999 true = .ok none ∧
    ethGetBlockByNumber sampleState (.num 9) false = .ok none :=
  ⟨(block_queries_absence sampleState 999 (.num 9) true).2.2.2.2.1 rfl,
   (block_queries_absence sampleState 999 (.num 9) false).2.2.2.2.2 rfl⟩

/-- C4: `eth_getTransactionReceipt` has an optional success type, and a
transaction hash that sits in the pool but is included in no canonical
block yields absence (`ok none`), not an RPC error: receipts exist only
post-inclusion. -/
theorem pooled_receipt_absent (st : ChainState) (hsh : Nat)
    (_hpool : hsh ∈ st.pool) (hinc : txIncluded st hsh = false) :
    EthApi.transaction_receipt.ret.isOption = true ∧
    ethGetTransactionReceipt st hsh = .ok none := by
  refine ⟨rfl, ?_⟩
  have hall : ∀ b ∈ st.blocks, ∀ tx ∈ b.transactions, ¬tx.hash = hsh := by
    intro b hb tx htx
    simp only [txIncluded, List.any_eq_false] at hinc
    have h2 := hinc b hb
    rw [Bool.not_eq_true, List.any_eq_false] at h2
    simpa using h2 tx htx
  have hnone : findReceipt st hsh = none := by
    apply findSomeL_eq_none
    intro p hp
    apply findSomeL_eq_none
    intro q hq
    have hne := hall p.2 (mem_withIdx_snd hp) q.2 (mem_withIdx_snd hq)
    simp [hne]
  simp [ethGetTransactionReceipt, hnone]

/-- Witness for C4: hash 77 is pooled in the concrete state and included
in no block. -/
theorem pooled_receipt_absent_witness :
    EthApi.transaction_receipt.ret.isOption = true ∧
    ethGetTransactionReceipt sampleState 77 = .ok none :=
  pooled_receipt_absent sampleState 77 (by decide) rfl

/-- C5: the mining submission methods are declared with plain boolean
success types; `eth_submitWork` always succeeds with a boolean that is
`true` exactly when the backend accepts the (nonce, powHash, mixHash) as
a valid solution for the currently outstanding job, and a stale job
(powHash no longer current) yields `false`, never an RPC error;
`eth_submitHashrate` likewise always succeeds with a boolean. -/
theorem mining_submissions_boolean (st : ChainState) (n p m r i : Nat) :
    EthApi.submit_work.ret = .bool ∧
    EthApi.submit_work.params = [.h64, .h256, .h256] ∧
    EthApi.submit_hashrate.ret = .bool ∧
    EthApi.submit_hashrate.params = [.u256, .h256] ∧
    (∃ acc, ethSubmitWork st n p m = .ok acc) ∧
    (ethSubmitWork st n p m = .ok true ↔
      p = st.currentJob.powHash ∧ st.solutionValid n p m = true) ∧
    (p ≠ st.currentJob.powHash → ethSubmitWork st n p m = .ok false) ∧
    (∃ acc, ethSubmitHashrate st r i = .ok acc) := by
  refine ⟨rfl, rfl, rfl, rfl, ⟨_, rfl⟩, ?_, ?_, ⟨_, rfl⟩⟩
  · simp [ethSubmitWork]
  · intro hne
    simp [ethSubmitWork, hne]

/-- Witness for C5: on the concrete state, the valid solution
(nonce 9, powHash 1000) is accepted and a stale powHash 5 is rejected
with `ok false`. -/
theorem mining_submissions_boolean_witness :
    ethSubmitWork sampleState 9 1000 0 = .ok true ∧
    ethSubmitWork sampleState 9 5 0 = .ok false :=
  ⟨(mining_submissions_boolean sampleState 9 1000 0 0 0).2.2.2.2.2.1.mpr
      ⟨rfl, rfl⟩,
   (mining_submissions_boolean sampleState 9 5 0 0 0).2.2.2.2.2.2.1
      (by decide)⟩

/-- C8: a sandboxed call that starts but logically reverts is a successful
RPC result whose output bytes encode the revert reason; and whenever
`eth_call` does return an RPC error, either the block identifier failed to
resolve or execution could not start at all. -/
theorem call_revert_is_success (st : ChainState) (req : CallRequest)
    (b b2 : Option BlockRef) (k : Nat) (r : List Nat)
    (hres : resolveHeight st (b.getD .latest) = some k)
    (hrev : st.exec req k = .revert r) :
    ethCall st req b = .ok (revertEncode r) ∧
    (∀ e, ethCall st req b2 = .error e →
      resolveHeight st (b2.getD .latest) = none ∨
      ∃ k2 m, resolveHeight st (b2.getD .latest) = some k2 ∧
        st.exec req k2 = .failure m ∧ e = .executionFailure m) := by
  constructor
  · simp [ethCall, hres, hrev]
  · intro e he
    unfold ethCall at he
    cases hr2 : resolveHeight st (b2.getD .latest) with
    | none => exact Or.inl rfl
    | some k2 =>
      rw [hr2] at he
      dsimp only at he
      right
      cases hx : st.exec req k2 with
      | success o => rw [hx] at he; dsimp only at he; cases he
      | revert r2 => rw [hx] at he; dsimp only at he; cases he
      | failure m =>
        rw [hx] at he
        dsimp only at he
        rcases he with ⟨⟩
        exact ⟨k2, m, rfl, hx, rfl⟩

/-- Witness for C8: on the concrete state a call whose data starts with 0
reverts with the remaining bytes as reason; `eth_call` succeeds with the
revert-encoded output. -/
theorem call_revert_is_success_witness :
    ethCall sampleState ⟨none, none, none, none, none, some [0, 1, 2]⟩
      (some (.num 0)) = .ok (revertEncode [1, 2]) :=
  (call_revert_is_success sampleState
    ⟨none, none, none, none, none, some [0, 1, 2]⟩
    (some (.num 0)) (some (.num 0)) 0 [1, 2] rfl rfl).1

/-- C9 counterexample: the claim says the mining-active flag `eth_mining`
is declared as an immediate (non-suspending) result, but the source trait
declares it `BoxFuture<Result<bool>>`, a deferred result. -/
theorem mining_flag_deferred : EthApi.is_mining.deferred = true := rfl

/-- C9 amended: of the three methods the claim groups together, the
hashrate and the work descriptor are indeed declared immediate, but the
mining-active flag `eth_mining` is declared deferred; the methods declared
immediate are exactly `eth_hashrate`, `eth_accounts`, the two uncle-count
methods, the two uncle lookups, `eth_getWork`, `eth_submitWork` and
`eth_submitHashrate`, while every other method — including all state
lookups, pool admission and execution sandboxing — is declared
deferred. -/
theorem deferral_partition :
    EthApi.hashrate.deferred = false ∧
    EthApi.work.deferred = false ∧
    EthApi.is_mining.deferred = true ∧
    (ethApiMethods.filter (fun m => !m.deferred)).map MethodDecl.rpcName =
      ["eth_hashrate", "eth_accounts", "eth_getUncleCountByBlockHash",
       "eth_getUncleCountByBlockNumber", "eth_getUncleByBlockHashAndIndex",
       "eth_getUncleByBlockNumberAndIndex", "eth_getWork", "eth_submitWork",
       "eth_submitHashrate"] :=
  ⟨rfl, rfl, rfl, rfl⟩

/-- C10: `eth_chainId` is declared with the optional success type
`Option<U64>` behind a deferred result; absence of a chain id is a `none`
success, never an RPC error, and an available chain id is returned
as-is. -/
theorem chain_id_optional (st : ChainState) (c : Nat) :
    EthApi.chain_id.ret = .option .u64 ∧
    EthApi.chain_id.deferred = true ∧
    (st.chainId = none → ethChainId st = .ok none) ∧
    (st.chainId = some c → ethChainId st = .ok (some c)) := by
  refine ⟨rfl, rfl, ?_, ?_⟩
  · intro h
    simp [ethChainId, h]
  · intro h
    simp [ethChainId, h]

/-- Witness for C10: the concrete state carries chain id 42. -/
theorem chain_id_optional_witness :
    ethChainId sampleState = .ok (some 42) :=
  (chain_id_optional sampleState 42).2.2.2 rfl
